import Mathlib

/-!
Verification of the AwoX BLE-mesh protocol and connection-management engine
(`custom_components/awox`): a shallow embedding in Lean of

* `awoxmeshlight/packetutils.py`  — packet codec (AES-based encrypt, checksum,
  keystream, command/notification packets, session-key derivation);
* `awoxmeshlight/__init__.py`     — per-connection session (pairing handshake,
  disconnect, status-frame parsing);
* `awox_mesh.py`                  — mesh scheduler (command queue worker with
  retries, candidate ranking by RSSI, status bookkeeping, staleness sweep).

Bytes are modelled as `Nat` (values < 256 in every reachable state), byte
strings as `List Nat`.  Python code that can raise is modelled with
`Option`/`Except`/explicit result types.  Randomness (`urandom`) is modelled by
passing the random bytes as explicit arguments.  MAC address strings of the
form `"AA:BB:CC:DD:EE:FF"` are modelled by their parsed 6-byte value (what
`bytearray.fromhex(address.replace(":",""))` produces).
-/

/-! ### Byte-string helpers -/

/-- XOR of two bytes (used pointwise, mirroring `a ^ b` on Python ints). -/
def bxor (a b : Nat) : Nat := a ^^^ b

/-- Pointwise XOR of two byte strings; like Python
`[a ^ b for (a,b) in zip(x, y)]`, the result is truncated to the shorter
argument (that is `zip`'s semantics). -/
def xorBytes (a b : List Nat) : List Nat := List.zipWith bxor a b

/-- Python `value.ljust(n, b'\x00')`: right-pad with zero bytes up to length
`n`; a longer string is returned unchanged. -/
def ljustZero (n : Nat) (l : List Nat) : List Nat := l ++ List.replicate (n - l.length) 0

/-- Read a byte string as exactly 16 bytes (AES block/key registers, zero
default).  On every reachable input the argument already has length 16. -/
def to16 (l : List Nat) : List Nat := (List.range 16).map (fun i => l.getD i 0)

/-! ### AES-128 block cipher

`packetutils.encrypt` calls PyCryptodome `AES.new(key, AES.MODE_ECB).encrypt`
on a single 16-byte block.  We embed AES-128 itself (FIPS-197): GF(2^8)
arithmetic, the S-box (given both as its defining GF(2^8) formula `sboxFun`
and as the literal table `sboxTable`, proved equal below), ShiftRows,
MixColumns, the key schedule, and the 10-round block encryption.  The state is
kept as a flat 16-byte list with `state[r][c] = bytes[r + 4*c]` as in the
standard. -/

/-- Multiplication by `x` in GF(2^8) modulo `x^8 + x^4 + x^3 + x + 1`. -/
def xtime (b : Nat) : Nat := if b < 128 then 2 * b else ((2 * b) % 256) ^^^ 0x1b

/-- Russian-peasant step loop for GF(2^8) multiplication. -/
def gmulGo : Nat → Nat → Nat → Nat → Nat
  | 0, _, _, acc => acc
  | n+1, a, b, acc => gmulGo n (xtime a) (b / 2) (if b % 2 = 1 then acc ^^^ a else acc)

/-- GF(2^8) multiplication. -/
def gmul (a b : Nat) : Nat := gmulGo 8 a b 0

/-- GF(2^8) multiplicative inverse via `x^254` (maps 0 to 0, AES convention). -/
def ginv (x : Nat) : Nat :=
  let x2 := gmul x x
  let x4 := gmul x2 x2
  let x8 := gmul x4 x4
  let x16 := gmul x8 x8
  let x32 := gmul x16 x16
  let x64 := gmul x32 x32
  let x128 := gmul x64 x64
  gmul x128 (gmul x64 (gmul x32 (gmul x16 (gmul x8 (gmul x4 x2)))))

/-- Rotate an 8-bit value left by `n` bits. -/
def rotl8 (b n : Nat) : Nat := ((b * 2 ^ n) % 256) ^^^ (b / 2 ^ (8 - n))

/-- The AES S-box from its definition: multiplicative inverse followed by the
affine transform `b ⊕ rotl(b,1) ⊕ rotl(b,2) ⊕ rotl(b,3) ⊕ rotl(b,4) ⊕ 0x63`. -/
def sboxFun (x : Nat) : Nat :=
  let b := ginv (x % 256)
  b ^^^ rotl8 b 1 ^^^ rotl8 b 2 ^^^ rotl8 b 3 ^^^ rotl8 b 4 ^^^ 0x63

/-- The AES S-box as a literal table (proved equal to `sboxFun` pointwise in
`sboxTable_eq_sboxFun` below; the table form keeps kernel evaluation of
concrete packets shallow and fast). -/
def sboxTable : List Nat := [
  99, 124, 119, 123, 242, 107, 111, 197, 48, 1, 103, 43, 254, 215, 171, 118,
  202, 130, 201, 125, 250, 89, 71, 240, 173, 212, 162, 175, 156, 164, 114, 192,
  183, 253, 147, 38, 54, 63, 247, 204, 52, 165, 229, 241, 113, 216, 49, 21,
  4, 199, 35, 195, 24, 150, 5, 154, 7, 18, 128, 226, 235, 39, 178, 117,
  9, 131, 44, 26, 27, 110, 90, 160, 82, 59, 214, 179, 41, 227, 47, 132,
  83, 209, 0, 237, 32, 252, 177, 91, 106, 203, 190, 57, 74, 76, 88, 207,
  208, 239, 170, 251, 67, 77, 51, 133, 69, 249, 2, 127, 80, 60, 159, 168,
  81, 163, 64, 143, 146, 157, 56, 245, 188, 182, 218, 33, 16, 255, 243, 210,
  205, 12, 19, 236, 95, 151, 68, 23, 196, 167, 126, 61, 100, 93, 25, 115,
  96, 129, 79, 220, 34, 42, 144, 136, 70, 238, 184, 20, 222, 94, 11, 219,
  224, 50, 58, 10, 73, 6, 36, 92, 194, 211, 172, 98, 145, 149, 228, 121,
  231, 200, 55, 109, 141, 213, 78, 169, 108, 86, 244, 234, 101, 122, 174, 8,
  186, 120, 37, 46, 28, 166, 180, 198, 232, 221, 116, 31, 75, 189, 139, 138,
  112, 62, 181, 102, 72, 3, 246, 14, 97, 53, 87, 185, 134, 193, 29, 158,
  225, 248, 152, 17, 105, 217, 142, 148, 155, 30, 135, 233, 206, 85, 40, 223,
  140, 161, 137, 13, 191, 230, 66, 104, 65, 153, 45, 15, 176, 84, 187, 22]

/-- S-box lookup (by table). -/
def sbox (x : Nat) : Nat := sboxTable.getD (x % 256) 0

/-- SubBytes: apply the S-box to every state byte. -/
def subBytes (s : List Nat) : List Nat := s.map sbox

/-- ShiftRows on the flat column-major state: `out[r + 4c] = in[r + 4((c+r) % 4)]`. -/
def shiftRows (s : List Nat) : List Nat :=
  [s.getD 0 0, s.getD 5 0, s.getD 10 0, s.getD 15 0,
   s.getD 4 0, s.getD 9 0, s.getD 14 0, s.getD 3 0,
   s.getD 8 0, s.getD 13 0, s.getD 2 0, s.getD 7 0,
   s.getD 12 0, s.getD 1 0, s.getD 6 0, s.getD 11 0]

/-- MixColumns on a single column. -/
def mixCol (a b c d : Nat) : List Nat :=
  [gmul 2 a ^^^ gmul 3 b ^^^ c ^^^ d,
   a ^^^ gmul 2 b ^^^ gmul 3 c ^^^ d,
   a ^^^ b ^^^ gmul 2 c ^^^ gmul 3 d,
   gmul 3 a ^^^ b ^^^ c ^^^ gmul 2 d]

/-- MixColumns on the whole state (columns are consecutive 4-byte groups). -/
def mixColumns (s : List Nat) : List Nat :=
  mixCol (s.getD 0 0) (s.getD 1 0) (s.getD 2 0) (s.getD 3 0) ++
  mixCol (s.getD 4 0) (s.getD 5 0) (s.getD 6 0) (s.getD 7 0) ++
  mixCol (s.getD 8 0) (s.getD 9 0) (s.getD 10 0) (s.getD 11 0) ++
  mixCol (s.getD 12 0) (s.getD 13 0) (s.getD 14 0) (s.getD 15 0)

/-- RotWord of the key schedule. -/
def rotWord (w : List Nat) : List Nat := w.drop 1 ++ w.take 1

/-- AES round constants. -/
def rcon : List Nat := [1, 2, 4, 8, 16, 32, 64, 128, 27, 54]

/-- Key-schedule word expansion: append `n` further words starting at index `i`. -/
def expandWords : List (List Nat) → Nat → Nat → List (List Nat)
  | ws, _, 0 => ws
  | ws, i, n+1 =>
    let wPrev := ws.getD (i - 1) []
    let w4 := ws.getD (i - 4) []
    let t := if i % 4 = 0
      then xorBytes (subBytes (rotWord wPrev)) [rcon.getD (i / 4 - 1) 0, 0, 0, 0]
      else wPrev
    expandWords (ws ++ [xorBytes w4 t]) (i + 1) n

/-- The 44 words of the AES-128 key schedule. -/
def keySchedule (key : List Nat) : List (List Nat) :=
  expandWords [key.take 4, (key.drop 4).take 4, (key.drop 8).take 4, (key.drop 12).take 4] 4 40

/-- Round key `r` as a 16-byte string. -/
def roundKey (ws : List (List Nat)) (r : Nat) : List Nat :=
  to16 (((ws.drop (4 * r)).take 4).flatten)

/-- AES-128 single-block encryption (FIPS-197, 10 rounds). -/
def aesEncryptBlock (key block : List Nat) : List Nat :=
  let ws := keySchedule key
  let s0 := xorBytes (to16 block) (roundKey ws 0)
  let s9 := (List.range 9).foldl
    (fun st i => xorBytes (mixColumns (shiftRows (subBytes st))) (roundKey ws (i + 1))) s0
  xorBytes (shiftRows (subBytes s9)) (roundKey ws 10)

/- The literal S-box table agrees with the GF(2^8) definition of the S-box. -/
set_option maxRecDepth 100000 in
example : sboxTable = (List.range 256).map sboxFun := by decide

/- FIPS-197 known-answer test for the embedded AES-128. -/
set_option maxRecDepth 100000 in
example : aesEncryptBlock
    [0x00, 0x01, 0x02, 0x03, 0x04, 0x05, 0x06, 0x07,
     0x08, 0x09, 0x0a, 0x0b, 0x0c, 0x0d, 0x0e, 0x0f]
    [0x00, 0x11, 0x22, 0x33, 0x44, 0x55, 0x66, 0x77,
     0x88, 0x99, 0xaa, 0xbb, 0xcc, 0xdd, 0xee, 0xff]
    = [0x69, 0xc4, 0xe0, 0xd8, 0x6a, 0x7b, 0x04, 0x30,
       0xd8, 0xcd, 0xb7, 0x80, 0x70, 0xb4, 0xc5, 0x5a] := by decide

/-! ### `packetutils.py` — the packet codec -/

namespace packetutils

/-- Source `packetutils.encrypt(key, value)` (lines 5-15): reverse the 16-byte key,
zero-pad `value` to 16 bytes and reverse it, AES-128-ECB encrypt, reverse the
output.  (The byte-reversal convention is load-bearing for the wire format.)
The Python asserts `len(key) == 16`; theorems carry that as a hypothesis. -/
def encrypt (key value : List Nat) : List Nat :=
  (aesEncryptBlock key.reverse (ljustZero 16 value).reverse).reverse

/-- The chunk loop of `make_checksum` (lines 28-31): for each 16-byte chunk of
the payload, XOR it (zero-padded) into the running value and re-encrypt.
`fuel` is initialised to `payload.length`, which bounds the number of chunks,
so the `fuel = 0` case is never reached; it only makes the recursion
structural.  `(b :: rest).drop 16 = rest.drop 15`. -/
def checksumGo (key : List Nat) : Nat → List Nat → List Nat → List Nat
  | _, check, [] => check
  | 0, check, _ :: _ => check
  | fuel+1, check, b :: rest =>
    checksumGo key fuel (encrypt key (xorBytes check (ljustZero 16 ((b :: rest).take 16)))) (rest.drop 15)

/-- Source `packetutils.make_checksum(key, nonce, payload)` (lines 17-33).
`bytearray([len(payload)])` raises `ValueError` when the payload is 256 bytes
or longer; that raise is modelled by `none`. -/
def make_checksum (key nonce payload : List Nat) : Option (List Nat) :=
  if payload.length ≥ 256 then none
  else some (checksumGo key payload.length
    (encrypt key (ljustZero 16 (nonce ++ [payload.length]))) payload)

/-- Python `base[0] += 1` on a bytearray: increment the first byte.  (Assigning 256
raises `ValueError`; the guard in `cryptGo` models that raise as `none`.) -/
def incHead : List Nat → List Nat
  | [] => []
  | h :: t => (h + 1) :: t

/-- The chunk loop of `crypt_payload` (lines 44-47): per 16-byte chunk, XOR
the chunk with `encrypt key base` and increment `base[0]`; the increment runs
after every chunk including the last, and raises (here: `none`) when the
counter byte would reach 256.  `fuel` is initialised to `payload.length`,
which bounds the number of chunks.  `(b :: rest).drop 16 = rest.drop 15`. -/
def cryptGo (key : List Nat) : Nat → List Nat → List Nat → Option (List Nat)
  | _, _, [] => some []
  | 0, _, _ :: _ => none
  | fuel+1, base, b :: rest =>
    let out := xorBytes (encrypt key base) ((b :: rest).take 16)
    if base.headD 0 + 1 ≥ 256 then none
    else (cryptGo key fuel (incHead base) (rest.drop 15)).map (out ++ ·)

/-- Source `packetutils.crypt_payload(key, nonce, payload)` (lines 35-49): XOR the
payload with the keystream obtained by encrypting `0x00 ‖ nonce` (zero-padded
to 16) with a per-block counter in byte 0.  Used for both encryption and
decryption. -/
def crypt_payload (key nonce payload : List Nat) : Option (List Nat) :=
  cryptGo key payload.length (ljustZero 16 (0 :: nonce)) payload

/-- Python `struct.pack("<H", n)`: 16-bit little endian. -/
def leBytes2 (n : Nat) : List Nat := [n % 256, n / 256]

/-- The nonce built by `make_command_packet` (lines 63-66): first 4 bytes of
the reversed MAC, then `0x01`, then the 3-byte random sequence `s`. -/
def cmdNonce (address s : List Nat) : List Nat := address.reverse.take 4 ++ [0x01] ++ s

/-- The plaintext payload built by `make_command_packet` (lines 68-70):
little-endian destination, command byte, the `0x60 0x01` marker, the data,
zero-padded to (at least) 15 bytes. -/
def cmdPayload (dest_id command : Nat) (data : List Nat) : List Nat :=
  ljustZero 15 (leBytes2 dest_id ++ [command] ++ [0x60, 0x01] ++ data)

/-- Source `packetutils.make_command_packet(key, address, dest_id, command, data)`
(lines 51-80).  The 3-byte random sequence `s` (Python: `urandom(3)`) is an
explicit argument.  `address` is the parsed 6-byte MAC.  The packet is
`s ‖ checksum[0:2] ‖ encrypted payload`; `none` models the (unreachable for
real arguments) `ValueError` paths of the two helpers. -/
def make_command_packet (key address : List Nat) (dest_id command : Nat) (data s : List Nat) :
    Option (List Nat) :=
  let nonce := cmdNonce address s
  let payload := cmdPayload dest_id command data
  match make_checksum key nonce payload, crypt_payload key nonce payload with
  | some check, some enc => some (s ++ check.take 2 ++ enc)
  | _, _ => none

/-- The nonce built by `decrypt_packet` (lines 93-96): first 3 bytes of the
reversed MAC, then the first 5 bytes of the raw packet. -/
def ntfNonce (address packet : List Nat) : List Nat := address.reverse.take 3 ++ packet.take 5

/-- Result of `decrypt_packet`: either a Python exception escaped (`raised`),
or the function returned (`result none` = returned `None` on checksum
mismatch, `result (some d)` = returned the decrypted packet `d`). -/
inductive DecryptResult where
  | raised : DecryptResult
  | result : Option (List Nat) → DecryptResult
deriving DecidableEq, Repr

/-- Source `packetutils.decrypt_packet(key, address, packet)` (lines 82-110): build
the notification-direction nonce, decrypt `packet[7:]` with the keystream,
recompute the checksum over the decrypted payload and compare its first two
bytes with `packet[5:7]`; return `None` on mismatch, else
`packet[0:7] ‖ payload`. -/
def decrypt_packet (key address packet : List Nat) : DecryptResult :=
  let nonce := ntfNonce address packet
  match crypt_payload key nonce (packet.drop 7) with
  | none => DecryptResult.raised
  | some payload =>
    match make_checksum key nonce payload with
    | none => DecryptResult.raised
    | some check =>
      if check.take 2 = (packet.drop 5).take 2 then DecryptResult.result (some (packet.take 7 ++ payload))
      else DecryptResult.result none

/-- Modelled from the spec: the spec's round-trip property reads
`decryptPacket` as the mirror of `buildCommandPacket` ("mirror construction"),
i.e. a decryption that uses the command-direction nonce
(reversed MAC first 4 bytes ‖ 0x01 ‖ the packet's 3-byte sequence) and strips
the 5-byte `sequence ‖ checksum[0:2]` header.  The repository has no such
function — `decrypt_packet` above uses the notification-direction framing —
so this definition exists only to state the amended round-trip claim. -/
def decrypt_command_packet (key address packet : List Nat) : Option (List Nat) :=
  let nonce := cmdNonce address (packet.take 3)
  (crypt_payload key nonce (packet.drop 5)).bind (fun payload =>
    (make_checksum key nonce payload).bind (fun check =>
      if check.take 2 = (packet.drop 3).take 2 then some payload
      else none))

/-- Source `packetutils.make_session_key(mesh_name, mesh_password, session_random,
response_random)` (lines 122-128): XOR the zero-padded name and password to
form the key, and `encrypt` the concatenated randoms with it. -/
def make_session_key (mesh_name mesh_password session_random response_random : List Nat) :
    List Nat :=
  encrypt (xorBytes (ljustZero 16 mesh_name) (ljustZero 16 mesh_password))
    (session_random ++ response_random)

end packetutils

/-! ### `awoxmeshlight/__init__.py` — the session -/

namespace AwoxMeshLight

/-- A Python value as it appears in a status dictionary. -/
inductive PyVal where
  | int : Nat → PyVal
  | bool : Bool → PyVal
  | str : String → PyVal
  | none : PyVal
deriving DecidableEq, Repr

/-- Python `d[k]` lookup in a status dictionary, as an `Option` (a `none`
result corresponds to a `KeyError` at the call site). -/
def dictGet (d : List (String × PyVal)) (k : String) : Option PyVal :=
  (d.find? (fun e => e.1 == k)).map (fun e => e.2)

/-- Source `AwoxMeshLight.parseStatusResult(data)` (lines 410-468), restricted to the
dictionary it builds (the per-object attribute copy and the callback hand-off
are the caller's concern): command byte at offset 7 selects the 0xDB
status-response layout or the 0xDC notification layout; any other command
yields an empty dictionary (Python: `status = {}` stays).  Note that neither
branch ever stores a `"type"` key.  `data` is a decrypted 20-byte packet;
`struct.unpack` on the fixed slices is modelled with `getD`. -/
def parseStatusResult (data : List Nat) : List (String × PyVal) :=
  let command := data.getD 7 0
  if command = 0xdb then
    let mode := data.getD 10 0
    let mesh_id := data.getD 4 0 * 256 + data.getD 3 0
    [("mesh_id", PyVal.int mesh_id),
     ("state", PyVal.bool (mode % 2 = 1)),
     ("color_mode", PyVal.bool (mode / 2 % 2 = 1)),
     ("transition_mode", PyVal.bool (mode / 4 % 2 = 1)),
     ("red", PyVal.int (data.getD 14 0)),
     ("green", PyVal.int (data.getD 15 0)),
     ("blue", PyVal.int (data.getD 16 0)),
     ("white_temperature", PyVal.int (data.getD 12 0)),
     ("white_brightness", PyVal.int (data.getD 11 0)),
     ("color_brightness", PyVal.int (data.getD 13 0))]
  else if command = 0xdc then
    let mesh_id := data.getD 19 0 * 256 + data.getD 10 0
    let mode := data.getD 12 0
    [("mesh_id", PyVal.int mesh_id),
     ("state", PyVal.bool (mode % 2 = 1)),
     ("color_mode", PyVal.bool (mode / 2 % 2 = 1)),
     ("transition_mode", PyVal.bool (mode / 4 % 2 = 1)),
     ("red", PyVal.int (data.getD 16 0)),
     ("green", PyVal.int (data.getD 17 0)),
     ("blue", PyVal.int (data.getD 18 0)),
     ("white_temperature", PyVal.int (data.getD 14 0)),
     ("white_brightness", PyVal.int (data.getD 13 0)),
     ("color_brightness", PyVal.int (data.getD 15 0))]
  else []

/-- Outcome of `AwoxMeshLight.connect` as observable by the caller: the
returned boolean, the session key held on the object after the call, and
whether `disconnect()` was invoked on the failure path. -/
structure ConnectOutcome where
  success : Bool
  session_key : Option (List Nat)
  disconnect_called : Bool
deriving DecidableEq, Repr

/-- The pairing-reply handling of `AwoxMeshLight.connect` (lines 263-274): the
transport steps (open, write pair packet, enable notifications, read reply)
are abstracted into the `reply` argument (the bytes read back from the pair
characteristic) and the 8-byte `session_random` argument (Python:
`urandom(8)`).  `reply[0] == 0xd` stores the session key derived from
`reply[1:9]` and returns `True`; any other first byte (0xE "auth error"
included) logs, disconnects — which clears the session key — and returns
`False` without raising.  (`reply[0]` itself would raise on an empty reply;
theorems assume `reply ≠ []`.) -/
def connect (mesh_name mesh_password session_random reply : List Nat) : ConnectOutcome :=
  if reply.headD 0 = 0x0d then
    { success := true,
      session_key := some (packetutils.make_session_key mesh_name mesh_password session_random
        ((reply.drop 1).take 8)),
      disconnect_called := false }
  else
    { success := false, session_key := none, disconnect_called := true }

/-- The externally visible steps of `AwoxMeshLight.disconnect` in order. -/
inductive DisconnectAction where
  | releaseTransport : DisconnectAction
  | clearSessionKey : DisconnectAction
deriving DecidableEq, Repr

/-- The session state `disconnect` acts on (only the session key matters). -/
structure LightState where
  session_key : Option (List Nat)
deriving DecidableEq, Repr

/-- Source `AwoxMeshLight.disconnect` (lines 559-566): first try
`self.btdevice.disconnect()` — any exception is swallowed (logged) — then set
`self.session_key = None`.  `release_fails` says whether the transport release
raises; the observable behaviour does not depend on it.  The second component
is the ordered trace of externally visible steps. -/
def disconnect (s : LightState) (release_fails : Bool) : LightState × List DisconnectAction :=
  ({ session_key := none },
   [DisconnectAction.releaseTransport, DisconnectAction.clearSessionKey])

end AwoxMeshLight

/-! ### `awox_mesh.py` — the scheduler -/

namespace AwoxMesh

/-- One entry of `AwoxMesh._devices` (registered in `register_device`,
lines 89-98).  `callback` is the registered callback capability, modelled as
an opaque identifier; `last_update` is a timestamp or `None`. -/
structure DeviceInfo where
  mac : Option (List Nat)
  name : String
  callback : Nat
  last_update : Option Nat
  update_count : Nat
  status_request_count : Nat
  rssi : Int
deriving DecidableEq, Repr, Inhabited

/-- A directory entry with the given mac and rssi (used for concrete
scenarios; the remaining fields are as `register_device` initialises them). -/
def demoDevice (mac : List Nat) (r : Int) : DeviceInfo :=
  { mac := some mac, name := "", callback := 0, last_update := Option.none,
    update_count := 0, status_request_count := 0, rssi := r }

/-- Source `AwoxMesh._getConnectableDevices` (lines 361-363):
`filter(lambda device: device[1]['rssi'] > -9999, sorted(self._devices.items(),
key=lambda t: t[1]['rssi'], reverse=True))`.  The directory is the insertion-
ordered list of `(mesh_id, info)` items; Python's `sorted` is a stable sort
and with `reverse=True` equal keys keep their original order, which is exactly
`List.insertionSort` with the relation "has at least as large an rssi". -/
def getConnectableDevices (devices : List (Nat × DeviceInfo)) : List (Nat × DeviceInfo) :=
  (devices.insertionSort (fun a b => b.2.rssi ≤ a.2.rssi)).filter
    (fun d => decide (d.2.rssi > -9999))

/-- The order of connection attempts made by `AwoxMesh._async_connect_device`
(lines 325-352) when every attempt fails: it iterates the connectable devices
in order, skipping entries whose `mac` is `None`, and tries to connect to each
remaining mac in turn. -/
def connectionAttempts (devices : List (Nat × DeviceInfo)) : List (List Nat) :=
  (getConnectableDevices devices).filterMap (fun d => d.2.mac)

/-- Source `AwoxMesh.mesh_status_callback(status)` (lines 184-202), modelled on the
device directory: if `status` has no `'mesh_id'` key or its mesh id is not a
registered device, return with no effect; otherwise evaluate
`status['type'] != 'status'` — reading a missing `'type'` key raises
`KeyError` (`Except.error`) — skipping non-status callbacks; for a
`'status'`-typed status, invoke the device's registered callback with the
status and set `last_update := now`, `update_count += 1`.  The result pairs
the new directory with the list of (callback, delivered status) invocations. -/
def mesh_status_callback (now : Nat) (devices : List (Nat × DeviceInfo))
    (status : List (String × AwoxMeshLight.PyVal)) :
    Except String (List (Nat × DeviceInfo) × List (Nat × List (String × AwoxMeshLight.PyVal))) :=
  match AwoxMeshLight.dictGet status "mesh_id" with
  | Option.none => Except.ok (devices, [])
  | some (AwoxMeshLight.PyVal.int mid) =>
    match devices.find? (fun e => e.1 == mid) with
    | Option.none => Except.ok (devices, [])
    | some dev =>
      match AwoxMeshLight.dictGet status "type" with
      | Option.none => Except.error "KeyError"
      | some t =>
        if t ≠ AwoxMeshLight.PyVal.str "status" then Except.ok (devices, [])
        else Except.ok
          (devices.map (fun e =>
            if e.1 = mid then
              (e.1, { e.2 with last_update := some now, update_count := e.2.update_count + 1 })
            else e),
           [(dev.2.callback, status)])
  | some _ => Except.ok (devices, [])

/-- Source `AwoxMesh.update_status_of_all_devices_to_disabled` (lines 170-175): for
every registered device with a recorded `last_update`, invoke its callback
with `{'state': None}` and reset `last_update` to `None` and `update_count` to
0; devices without a recorded `last_update` are not touched.  Returns the new
directory and the ordered (callback, payload) invocation trace. -/
def update_status_of_all_devices_to_disabled :
    List (Nat × DeviceInfo) →
    List (Nat × DeviceInfo) × List (Nat × List (String × AwoxMeshLight.PyVal))
  | [] => ([], [])
  | (mesh_id, d) :: rest =>
    let r := update_status_of_all_devices_to_disabled rest
    if d.last_update.isSome then
      ((mesh_id, { d with last_update := Option.none, update_count := 0 }) :: r.1,
       (d.callback, [("state", AwoxMeshLight.PyVal.none)]) :: r.2)
    else ((mesh_id, d) :: r.1, r.2)

/-- What one attempt of `AwoxMesh._call_command` observes from the outside
world: whether the device is connected after `_connect_device()` returns, and
what the command call did if it ran. -/
inductive SendOutcome where
  | raises : SendOutcome
  | returnsNone : SendOutcome
  | returnsSome : SendOutcome
deriving DecidableEq, Repr

/-- Environment of one `_call_command` attempt. -/
structure AttemptEnv where
  connected : Bool
  send : SendOutcome
deriving DecidableEq, Repr

/-- Source `AwoxMesh._call_command(command)` (lines 284-318): connect, and if still
not connected return `False` (for every command, `allow_to_fail` included);
otherwise run the command — an exception sets `failed` and `result = None`; a
`None` result with `allow_to_fail=false` and no exception also sets `failed`
— and return `False` exactly when `failed` and not `allow_to_fail`. -/
def call_command (allow_to_fail : Bool) (e : AttemptEnv) : Bool :=
  if !e.connected then false
  else
    let failed := e.send = SendOutcome.raises
    let result_is_none := e.send ≠ SendOutcome.returnsSome
    let failed := if result_is_none ∧ ¬allow_to_fail ∧ ¬failed then true else failed
    if failed ∧ ¬allow_to_fail then false else true

/-- The retry loop of `AwoxMesh._process_command_queue` (lines 267-271):
`tries = 0; while not self._call_command(command) and tries < 3: tries += 1`.
`budget` is the remaining `3 - tries`, `k` counts the `_call_command`
invocations made so far; the loop condition calls `_call_command` once per
evaluation, so with `budget = 0` one final call is still made (and its result
discarded, since `tries < 3` fails either way). -/
def retryGo (call : Nat → Bool) : Nat → Nat → Nat
  | 0, k => k + 1
  | b+1, k => if call (k : Nat) then k + 1 else retryGo call b (k + 1)

/-- Number of `_call_command` attempts the queue worker makes for one dequeued
command, given the outcome environment of each attempt.  After the loop the
worker always invokes `command['callback']()` (which merely unblocks the
submitter — no success/failure value flows back). -/
def processAttempts (allow_to_fail : Bool) (env : Nat → AttemptEnv) : Nat :=
  retryGo (fun k => call_command allow_to_fail (env k)) 3 0

/-- A transport where every connect attempt fails. -/
def connectFailEnv : Nat → AttemptEnv :=
  fun _ => { connected := false, send := SendOutcome.raises }

/-- A transport where connecting succeeds but every send returns no result. -/
def sendFailEnv : Nat → AttemptEnv :=
  fun _ => { connected := true, send := SendOutcome.returnsNone }

end AwoxMesh

/-! ## Claim theorems -/

/-- Claim C2 (corrected): the queue worker's retry loop
(`while not self._call_command(command) and tries < 3`) evaluates
`_call_command` once per loop-condition check, so a command whose every
attempt fails is attempted exactly 4 times — not 3 — and this holds for
`allow_to_fail = true` commands as well whenever the failure is a failure to
connect (`_call_command` returns `False` before consulting `allow_to_fail`
when not connected).  Only when connecting succeeds and the send itself fails
(exception or `None` result) is an `allow_to_fail = true` command attempted
exactly once, its failure not propagating.  In every case the worker then
unblocks the submitter with no failure indication. -/
theorem C2_retry_counts :
    (∀ env : Nat → AwoxMesh.AttemptEnv, (∀ k, (env k).connected = false) →
      ∀ allow_to_fail, AwoxMesh.processAttempts allow_to_fail env = 4) ∧
    (∀ env : Nat → AwoxMesh.AttemptEnv,
      (∀ k, (env k).connected = true ∧ (env k).send ≠ AwoxMesh.SendOutcome.returnsSome) →
      AwoxMesh.processAttempts false env = 4 ∧ AwoxMesh.processAttempts true env = 1) := by
  constructor
  · intro env h allow_to_fail
    have c : ∀ k, AwoxMesh.call_command allow_to_fail (env k) = false := by
      intro k
      simp [AwoxMesh.call_command, h k]
    simp [AwoxMesh.processAttempts, AwoxMesh.retryGo, c 0, c 1, c 2]
  · intro env h
    have cf : ∀ k, AwoxMesh.call_command false (env k) = false := by
      intro k
      obtain ⟨hc, hs⟩ := h k
      cases hsend : (env k).send <;>
        simp_all [AwoxMesh.call_command, hc, hsend]
    have ct : AwoxMesh.call_command true (env 0) = true := by
      obtain ⟨hc, hs⟩ := h 0
      cases hsend : (env 0).send <;>
        simp_all [AwoxMesh.call_command, hc, hsend]
    constructor
    · simp [AwoxMesh.processAttempts, AwoxMesh.retryGo, cf 0, cf 1, cf 2]
    · simp [AwoxMesh.processAttempts, AwoxMesh.retryGo, ct]

/-- Witness for C2: a concrete environment where connecting succeeds but every
send returns no result: an `allow_to_fail = false` command is attempted 4
times, an `allow_to_fail = true` command once. -/
theorem C2_retry_counts_witness :
    AwoxMesh.processAttempts false AwoxMesh.sendFailEnv = 4 ∧
    AwoxMesh.processAttempts true AwoxMesh.sendFailEnv = 1 :=
  C2_retry_counts.2 AwoxMesh.sendFailEnv (fun k => by simp [AwoxMesh.sendFailEnv])

/-- Counterexample to claim C2 as stated: with a transport where every connect
attempt fails, an `allow_to_fail = false` command is attempted 4 times (the
claim says exactly 3) and an `allow_to_fail = true` command is also attempted
4 times (the claim says exactly once). -/
theorem C2_counterexample :
    AwoxMesh.processAttempts false AwoxMesh.connectFailEnv = 4 ∧
    AwoxMesh.processAttempts true AwoxMesh.connectFailEnv = 4 ∧
    (4 : Nat) ≠ 3 ∧ (4 : Nat) ≠ 1 :=
  ⟨rfl, rfl, by decide, by decide⟩

/-- Claim C5 (confirmed): `connect` succeeds and stores the session key
derived by `make_session_key` from the mesh name, mesh password, session
random and reply bytes 1..8 if and only if reply byte 0 is 0x0D; for any
other first byte (0x0E authentication-rejected included) it disconnects,
leaves no session key, and returns failure without raising. -/
theorem C5_connect_reply (mesh_name mesh_password session_random reply : List Nat)
    (hreply : reply ≠ []) :
    ((AwoxMeshLight.connect mesh_name mesh_password session_random reply).success = true ↔
      reply.headD 0 = 0x0d) ∧
    (reply.headD 0 = 0x0d →
      AwoxMeshLight.connect mesh_name mesh_password session_random reply =
        { success := true,
          session_key := some (packetutils.make_session_key mesh_name mesh_password
            session_random ((reply.drop 1).take 8)),
          disconnect_called := false }) ∧
    (reply.headD 0 ≠ 0x0d →
      AwoxMeshLight.connect mesh_name mesh_password session_random reply =
        { success := false, session_key := Option.none, disconnect_called := true }) ∧
    ((AwoxMeshLight.connect mesh_name mesh_password session_random reply).success = true ↔
      (AwoxMeshLight.connect mesh_name mesh_password session_random reply).session_key.isSome) := by
  by_cases h : reply.headD 0 = 0x0d
  · simp only [AwoxMeshLight.connect]
    rw [if_pos h]
    rw [List.headD_eq_head?_getD] at h
    simp [h]
  · simp only [AwoxMeshLight.connect]
    rw [if_neg h]
    rw [List.headD_eq_head?_getD] at h
    simp [h]

/-- Witness for C5 at a concrete rejected pairing reply (first byte 0x0E). -/
theorem C5_connect_reply_witness :
    AwoxMeshLight.connect [1] [2] [3, 4] [0x0e, 9, 9] =
      { success := false, session_key := Option.none, disconnect_called := true } :=
  (C5_connect_reply [1] [2] [3, 4] [0x0e, 9, 9] (by decide)).2.2.1 (by decide)

/-- Counterexample to claim C6 as stated: `disconnect` does not clear the
session key first — its first externally visible step is the transport
release; the recorded action trace is not
`[clearSessionKey, releaseTransport]`. -/
theorem C6_counterexample :
    ¬ (AwoxMeshLight.disconnect { session_key := some (List.replicate 16 7) } false).2 =
      [AwoxMeshLight.DisconnectAction.clearSessionKey,
       AwoxMeshLight.DisconnectAction.releaseTransport] := by
  decide

/-- Claim C6 (corrected): `disconnect` is idempotent and never throws; on
every call it first attempts to release the transport (and swallows a
transport-release failure: the outcome does not depend on `release_fails`),
and then clears the session key, so that after the call `session_key` is
`None`. -/
theorem C6_disconnect (s : AwoxMeshLight.LightState) (release_fails more_fails : Bool) :
    (AwoxMeshLight.disconnect s release_fails).1.session_key = Option.none ∧
    (AwoxMeshLight.disconnect s release_fails).2 =
      [AwoxMeshLight.DisconnectAction.releaseTransport,
       AwoxMeshLight.DisconnectAction.clearSessionKey] ∧
    AwoxMeshLight.disconnect (AwoxMeshLight.disconnect s release_fails).1 more_fails =
      AwoxMeshLight.disconnect s release_fails ∧
    AwoxMeshLight.disconnect s true = AwoxMeshLight.disconnect s false := by
  simp [AwoxMeshLight.disconnect]

/-- Claim C7 (confirmed): the candidate list `_getConnectableDevices` contains
exactly the registered devices whose rssi is above the `-9999` reachability
floor, sorted by descending rssi with ties broken by registration order; in
the concrete scenario of a directory holding devices at rssi -999999, -90 and
-40 (registered in that order), connection is attempted to the -40 device
first, then the -90 device, and never to the -999999 device. -/
theorem C7_candidate_ranking :
    (∀ (devices : List (Nat × AwoxMesh.DeviceInfo)) (x : Nat × AwoxMesh.DeviceInfo),
      x ∈ AwoxMesh.getConnectableDevices devices ↔ x ∈ devices ∧ -9999 < x.2.rssi) ∧
    (∀ devices : List (Nat × AwoxMesh.DeviceInfo),
      (AwoxMesh.getConnectableDevices devices).Pairwise (fun a b => b.2.rssi ≤ a.2.rssi)) ∧
    (∀ (devices : List (Nat × AwoxMesh.DeviceInfo)) (a b : Nat × AwoxMesh.DeviceInfo),
      List.Sublist [a, b] devices → a.2.rssi = b.2.rssi → -9999 < a.2.rssi →
      List.Sublist [a, b] (AwoxMesh.getConnectableDevices devices)) ∧
    AwoxMesh.connectionAttempts
        [(1, AwoxMesh.demoDevice [0xa1] (-999999)),
         (2, AwoxMesh.demoDevice [0xa2] (-90)),
         (3, AwoxMesh.demoDevice [0xa3] (-40))] = [[0xa3], [0xa2]] := by
  refine ⟨?_, ?_, ?_, by decide⟩
  · intro devices x
    simp [AwoxMesh.getConnectableDevices, List.mem_filter, List.mem_insertionSort]
  · intro devices
    haveI : IsTotal (Nat × AwoxMesh.DeviceInfo) (fun a b => b.2.rssi ≤ a.2.rssi) :=
      ⟨fun a b => le_total b.2.rssi a.2.rssi⟩
    haveI : IsTrans (Nat × AwoxMesh.DeviceInfo) (fun a b => b.2.rssi ≤ a.2.rssi) :=
      ⟨fun _ _ _ hab hbc => le_trans hbc hab⟩
    exact (List.sorted_insertionSort _ devices).sublist (List.filter_sublist _)
  · intro devices a b hsub heq hfloor
    have hpair := List.pair_sublist_insertionSort
      (r := fun a b : Nat × AwoxMesh.DeviceInfo => b.2.rssi ≤ a.2.rssi) (le_of_eq heq.symm) hsub
    have := hpair.filter (fun d : Nat × AwoxMesh.DeviceInfo => decide (d.2.rssi > -9999))
    simpa [AwoxMesh.getConnectableDevices, List.filter, hfloor, heq ▸ hfloor] using this

/-- Witness for C7: a concrete application of the tie-stability part — two
registered devices with equal rssi -50 stay in registration order in the
candidate list. -/
theorem C7_candidate_ranking_witness :
    List.Sublist
      [(1, AwoxMesh.demoDevice [0xa1] (-50)), (2, AwoxMesh.demoDevice [0xa2] (-50))]
      (AwoxMesh.getConnectableDevices
        [(1, AwoxMesh.demoDevice [0xa1] (-50)), (2, AwoxMesh.demoDevice [0xa2] (-50))]) :=
  C7_candidate_ranking.2.2.1
    [(1, AwoxMesh.demoDevice [0xa1] (-50)), (2, AwoxMesh.demoDevice [0xa2] (-50))]
    (1, AwoxMesh.demoDevice [0xa1] (-50)) (2, AwoxMesh.demoDevice [0xa2] (-50))
    (List.Sublist.refl _) (by decide) (by decide)

/-- Claim C8 (code bug): `parseStatusResult` never stores a `"type"` key, yet
`mesh_status_callback` evaluates `status['type'] != 'status'` for every frame
whose parsed mesh id is registered — so both a 0xDB status-response frame and
a 0xDC notification frame for a registered device make the scheduler raise
`KeyError` instead of invoking the device callback and updating its
bookkeeping. -/
theorem C8_keyerror_on_registered_frames :
    AwoxMesh.mesh_status_callback 100 [(5, AwoxMesh.demoDevice [0xa1] (-50))]
      (AwoxMeshLight.parseStatusResult
        [0, 0, 0, 5, 0, 0, 0, 0xdb, 0, 0, 1, 2, 3, 4, 5, 6, 7, 0, 0, 0]) =
      Except.error "KeyError" ∧
    AwoxMesh.mesh_status_callback 100 [(5, AwoxMesh.demoDevice [0xa1] (-50))]
      (AwoxMeshLight.parseStatusResult
        [0, 0, 0, 0, 0, 0, 0, 0xdc, 0, 0, 5, 0, 1, 2, 3, 4, 5, 6, 7, 0]) =
      Except.error "KeyError" := by
  constructor <;> rfl

/-- Claim C9 (confirmed): in the directory-wide unavailable sweep, every
registered device with a recorded `last_update` gets `update_count` reset to 0
and `last_update` cleared while mac, name, rssi, callback and
`status_request_count` are unchanged; a device with no recorded `last_update`
is not touched at all; and the callback trace is exactly one synthesized
`{'state': None}` invocation per device that had a recorded `last_update`, in
directory order. -/
theorem C9_disable_sweep (devices : List (Nat × AwoxMesh.DeviceInfo)) :
    List.Forall₂ (fun old new : Nat × AwoxMesh.DeviceInfo =>
        new.1 = old.1 ∧
        new.2.mac = old.2.mac ∧
        new.2.name = old.2.name ∧
        new.2.callback = old.2.callback ∧
        new.2.rssi = old.2.rssi ∧
        new.2.status_request_count = old.2.status_request_count ∧
        new.2.last_update = Option.none ∧
        new.2.update_count = (if old.2.last_update.isSome then 0 else old.2.update_count) ∧
        (old.2.last_update = Option.none → new = old))
      devices (AwoxMesh.update_status_of_all_devices_to_disabled devices).1 ∧
    (AwoxMesh.update_status_of_all_devices_to_disabled devices).2 =
      (devices.filter (fun e => e.2.last_update.isSome)).map
        (fun e => (e.2.callback, [("state", AwoxMeshLight.PyVal.none)])) := by
  induction devices with
  | nil => simp [AwoxMesh.update_status_of_all_devices_to_disabled]
  | cons hd tl ih =>
    obtain ⟨mid, d⟩ := hd
    by_cases h : d.last_update.isSome
    · refine ⟨?_, ?_⟩
      · simp only [AwoxMesh.update_status_of_all_devices_to_disabled, h, if_pos]
        refine List.Forall₂.cons ?_ ih.1
        refine ⟨rfl, rfl, rfl, rfl, rfl, rfl, rfl, by simp [h], ?_⟩
        intro hnone
        rw [hnone] at h
        simp at h
      · simp only [AwoxMesh.update_status_of_all_devices_to_disabled, h, if_pos]
        simp [List.filter, h, ih.2]
    · have hnone : d.last_update = Option.none := by
        cases hval : d.last_update
        · rfl
        · rw [hval] at h; simp at h
      refine ⟨?_, ?_⟩
      · simp only [AwoxMesh.update_status_of_all_devices_to_disabled, h, if_neg, Bool.false_eq_true,
          not_false_iff]
        refine List.Forall₂.cons ?_ ih.1
        exact ⟨rfl, rfl, rfl, rfl, rfl, rfl, hnone, by simp [h], fun _ => rfl⟩
      · simp only [AwoxMesh.update_status_of_all_devices_to_disabled, h, if_neg, Bool.false_eq_true,
          not_false_iff]
        simp [List.filter, h, ih.2]

/-! ## Codec lemmas -/

theorem to16_length (l : List Nat) : (to16 l).length = 16 := by
  simp [to16]

theorem shiftRows_length (s : List Nat) : (shiftRows s).length = 16 := rfl

theorem aesEncryptBlock_length (key block : List Nat) :
    (aesEncryptBlock key block).length = 16 := by
  simp [aesEncryptBlock, roundKey, xorBytes, shiftRows_length, to16_length]

theorem encrypt_length (key v : List Nat) : (packetutils.encrypt key v).length = 16 := by
  simp [packetutils.encrypt, aesEncryptBlock_length]

theorem ljustZero_length (n : Nat) (l : List Nat) :
    (ljustZero n l).length = max n l.length := by
  simp [ljustZero]
  omega

theorem xorBytes_length (a b : List Nat) :
    (xorBytes a b).length = min a.length b.length := by
  simp [xorBytes]

/-- XOR-ing the same (sufficiently long) keystream twice gives the plaintext
back. -/
theorem xorBytes_cancel : ∀ (a b : List Nat), b.length ≤ a.length →
    xorBytes a (xorBytes a b) = b := by
  intro a
  induction a with
  | nil =>
    intro b h
    have : b = [] := List.eq_nil_of_length_eq_zero (Nat.le_zero.mp (by simpa using h))
    simp [this, xorBytes]
  | cons x xs ih =>
    intro b h
    cases b with
    | nil => simp [xorBytes]
    | cons y ys =>
      simp only [xorBytes, List.zipWith_cons_cons] at *
      refine congrArg₂ List.cons ?_ (ih ys (by simpa using h))
      simp [bxor, Nat.xor_cancel_left]

theorem checksumGo_length (key : List Nat) :
    ∀ (fuel : Nat) (check payload : List Nat), check.length = 16 →
      (packetutils.checksumGo key fuel check payload).length = 16 := by
  intro fuel
  induction fuel with
  | zero =>
    intro check payload h
    cases payload <;> simpa [packetutils.checksumGo]
  | succ n ih =>
    intro check payload h
    cases payload with
    | nil => simpa [packetutils.checksumGo]
    | cons b rest =>
      simpa [packetutils.checksumGo] using ih _ _ (encrypt_length _ _)

theorem make_checksum_some (key nonce payload : List Nat) (h : payload.length < 256) :
    ∃ check, packetutils.make_checksum key nonce payload = some check ∧ check.length = 16 := by
  have heq : packetutils.make_checksum key nonce payload =
      some (packetutils.checksumGo key payload.length
        (packetutils.encrypt key (ljustZero 16 (nonce ++ [payload.length]))) payload) := by
    simp only [packetutils.make_checksum]
    rw [if_neg (by omega)]
  exact ⟨_, heq, checksumGo_length key _ _ _ (encrypt_length _ _)⟩

/-- The keystream loop succeeds whenever the counter byte cannot overflow:
the number of 16-byte blocks fits under 256 counting from the initial counter
value. -/
theorem cryptGo_some (key : List Nat) :
    ∀ (fuel : Nat) (base p : List Nat), p.length ≤ fuel →
      base.headD 0 + (p.length + 15) / 16 ≤ 255 →
      ∃ c, packetutils.cryptGo key fuel base p = some c := by
  intro fuel
  induction fuel with
  | zero =>
    intro base p hf hb
    cases p with
    | nil => exact ⟨[], rfl⟩
    | cons b rest => simp at hf
  | succ n ih =>
    intro base p hf hb
    cases p with
    | nil => exact ⟨[], rfl⟩
    | cons b rest =>
      simp only [List.length_cons] at hf hb
      have hg : ¬ (base.headD 0 + 1 ≥ 256) := by omega
      have hh : (packetutils.incHead base).headD 0 ≤ base.headD 0 + 1 := by
        cases base <;> simp [packetutils.incHead]
      obtain ⟨c, hc⟩ := ih (packetutils.incHead base) (rest.drop 15)
        (by simp [List.length_drop]; omega)
        (by simp only [List.length_drop]; omega)
      refine ⟨xorBytes (packetutils.encrypt key base) ((b :: rest).take 16) ++ c, ?_⟩
      simp only [packetutils.cryptGo]
      rw [if_neg hg, hc]
      rfl

/-- The keystream loop is an involution: running it again on its own output
(same key, same counter base, same fuel) recovers the input, and it preserves
length. -/
theorem cryptGo_inv (key : List Nat) :
    ∀ (fuel : Nat) (base p c : List Nat), p.length ≤ fuel →
      packetutils.cryptGo key fuel base p = some c →
      c.length = p.length ∧ packetutils.cryptGo key fuel base c = some p := by
  intro fuel
  induction fuel with
  | zero =>
    intro base p c hf hp
    cases p with
    | nil =>
      have hc : c = [] := by
        simpa [packetutils.cryptGo] using hp.symm
      subst hc
      simp [packetutils.cryptGo]
    | cons b rest => simp at hf
  | succ n ih =>
    intro base p c hf hp
    cases p with
    | nil =>
      have hc : c = [] := by
        simpa [packetutils.cryptGo] using hp.symm
      subst hc
      simp [packetutils.cryptGo]
    | cons hd rest =>
      simp only [packetutils.cryptGo] at hp
      by_cases hg : base.headD 0 + 1 ≥ 256
      · rw [if_pos hg] at hp
        cases hp
      · rw [if_neg hg] at hp
        obtain ⟨crec, hcrec, hcc⟩ := Option.map_eq_some'.mp hp
        subst hcc
        have hflen : (rest.drop 15).length ≤ n := by
          simp only [List.length_drop]
          simp only [List.length_cons] at hf
          omega
        obtain ⟨hlen, hback⟩ := ih (packetutils.incHead base) (rest.drop 15) crec hflen hcrec
        set out := xorBytes (packetutils.encrypt key base) ((hd :: rest).take 16) with hout
        have houtlen : out.length = min 16 (rest.length + 1) := by
          simp [hout, xorBytes_length, encrypt_length, List.length_take]
          omega
        have hdlen : (rest.drop 15).length = rest.length - 15 := by
          simp [List.length_drop]
        have htake : (out ++ crec).take 16 = out := by
          by_cases h16 : 15 ≤ rest.length
          · exact List.take_left' (by omega)
          · have hcrecnil : crec = [] :=
              List.eq_nil_of_length_eq_zero (by omega)
            subst hcrecnil
            rw [List.append_nil]
            exact List.take_of_length_le (by omega)
        have hdrop : (out ++ crec).drop 16 = crec := by
          by_cases h16 : 15 ≤ rest.length
          · exact List.drop_left' (by omega)
          · have hcrecnil : crec = [] :=
              List.eq_nil_of_length_eq_zero (by omega)
            subst hcrecnil
            rw [List.append_nil]
            exact List.drop_of_length_le (by omega)
        refine ⟨?_, ?_⟩
        · simp only [List.length_append, List.length_cons]
          omega
        · obtain ⟨o, os, ho⟩ : ∃ o os, out = o :: os := by
            cases houtcase : out with
            | nil =>
              rw [houtcase] at houtlen
              simp at houtlen
              omega
            | cons o os => exact ⟨o, os, rfl⟩
          rw [ho, List.cons_append]
          simp only [packetutils.cryptGo]
          rw [if_neg hg]
          have h2 : (os ++ crec).drop 15 = crec := by
            have h3 := hdrop
            rw [ho, List.cons_append, List.drop_succ_cons] at h3
            exact h3
          have h1 : (o :: (os ++ crec)).take 16 = out := by
            rw [← List.cons_append, ← ho]
            exact htake
          rw [h2, hback]
          have hcancel : xorBytes (packetutils.encrypt key base) out = (hd :: rest).take 16 := by
            rw [hout]
            exact xorBytes_cancel _ _ (by simp [encrypt_length, List.length_take])
          rw [Option.map_some', h1, hcancel]
          have hsplit : (hd :: rest).take 16 ++ rest.drop 15 = hd :: rest := by
            rw [← List.drop_succ_cons (n := 15)]
            exact List.take_append_drop 16 (hd :: rest)
          rw [hsplit]

/-- Lemma: `crypt_payload` succeeds, preserves length, and is an involution when the
payload stays below 256 keystream blocks (4080 bytes). -/
theorem crypt_payload_spec (key nonce payload : List Nat) (hp : payload.length ≤ 4080) :
    ∃ c, packetutils.crypt_payload key nonce payload = some c ∧
      c.length = payload.length ∧
      packetutils.crypt_payload key nonce c = some payload := by
  have hbase : (ljustZero 16 (0 :: nonce)).headD 0 = 0 := by
    simp [ljustZero]
  obtain ⟨c, hc⟩ := cryptGo_some key payload.length (ljustZero 16 (0 :: nonce)) payload
    le_rfl (by rw [hbase]; omega)
  obtain ⟨hlen, hback⟩ := cryptGo_inv key payload.length _ payload c le_rfl hc
  refine ⟨c, hc, hlen, ?_⟩
  simp only [packetutils.crypt_payload]
  rw [hlen]
  exact hback

theorem cmdPayload_length (dest command : Nat) (data : List Nat) :
    (packetutils.cmdPayload dest command data).length = max 15 (data.length + 5) := by
  simp [packetutils.cmdPayload, ljustZero_length, packetutils.leBytes2]

theorem cmdPayload_eq (dest command : Nat) (data : List Nat) :
    packetutils.cmdPayload dest command data =
      dest % 256 :: dest / 256 :: command :: 0x60 :: 0x01 ::
        (data ++ List.replicate (15 - (data.length + 5)) 0) := by
  simp [packetutils.cmdPayload, ljustZero, packetutils.leBytes2]

/-- Lemma: `make_command_packet` always succeeds for data of at most 11 bytes, and
its packet is the sequence, the first two checksum bytes, and the encrypted
payload; the encrypted payload decrypts back to the plaintext payload under
the same nonce. -/
theorem make_command_packet_spec (key address : List Nat) (dest command : Nat)
    (data s : List Nat) (hdata : data.length ≤ 11) :
    ∃ check enc,
      packetutils.make_checksum key (packetutils.cmdNonce address s)
        (packetutils.cmdPayload dest command data) = some check ∧ check.length = 16 ∧
      packetutils.crypt_payload key (packetutils.cmdNonce address s)
        (packetutils.cmdPayload dest command data) = some enc ∧
      enc.length = (packetutils.cmdPayload dest command data).length ∧
      packetutils.crypt_payload key (packetutils.cmdNonce address s) enc =
        some (packetutils.cmdPayload dest command data) ∧
      packetutils.make_command_packet key address dest command data s =
        some (s ++ check.take 2 ++ enc) := by
  have hplen := cmdPayload_length dest command data
  obtain ⟨check, hck, hcklen⟩ := make_checksum_some key (packetutils.cmdNonce address s)
    (packetutils.cmdPayload dest command data) (by omega)
  obtain ⟨enc, henc, henclen, hback⟩ := crypt_payload_spec key (packetutils.cmdNonce address s)
    (packetutils.cmdPayload dest command data) (by omega)
  refine ⟨check, enc, hck, hcklen, henc, henclen, hback, ?_⟩
  simp only [packetutils.make_command_packet]
  rw [hck, henc]

/-- Claim C10 (confirmed): for every 16-byte key, nonce of at most 15 bytes,
and payload of at most 4080 bytes (255 AES blocks, below the counter-byte
overflow), `crypt_payload` succeeds, preserves length, and is an involution:
running it on its own output returns the original payload, so the same
function both encrypts and decrypts. -/
theorem C10_crypt_involution (key nonce payload : List Nat)
    (hkey : key.length = 16) (hnonce : nonce.length ≤ 15) (hp : payload.length ≤ 4080) :
    ∃ c, packetutils.crypt_payload key nonce payload = some c ∧
      c.length = payload.length ∧
      packetutils.crypt_payload key nonce c = some payload :=
  crypt_payload_spec key nonce payload hp

/-- Witness for C10 at a concrete key, nonce and payload. -/
theorem C10_crypt_involution_witness :
    ∃ c, packetutils.crypt_payload
        [0, 1, 2, 3, 4, 5, 6, 7, 8, 9, 10, 11, 12, 13, 14, 15] [9, 8, 7] [1, 2, 3, 4, 5] =
        some c ∧
      c.length = [1, 2, 3, 4, 5].length ∧
      packetutils.crypt_payload [0, 1, 2, 3, 4, 5, 6, 7, 8, 9, 10, 11, 12, 13, 14, 15]
        [9, 8, 7] c = some [1, 2, 3, 4, 5] :=
  C10_crypt_involution [0, 1, 2, 3, 4, 5, 6, 7, 8, 9, 10, 11, 12, 13, 14, 15] [9, 8, 7]
    [1, 2, 3, 4, 5] (by decide) (by decide) (by decide)

/-- Claim C1 (corrected): `decrypt_packet` is not an inverse of
`make_command_packet` (see `C1_counterexample`: it builds the
notification-direction nonce and framing, so the checksum comparison fails on
a host-built command packet).  The round trip does hold for the mirror
decryption `decrypt_command_packet` that uses the command-direction nonce and
strips the 5-byte `sequence ‖ checksum[0:2]` header: it recovers the 15-byte
(or 16-byte, for 11-byte data) plaintext payload, whose bytes 0-1 are the
little-endian destination, byte 2 the opcode, and whose data follows the
`0x60 0x01` marker at byte 5. -/
theorem C1_roundtrip (key address : List Nat) (dest command : Nat) (data s : List Nat)
    (hkey : key.length = 16) (haddr : address.length = 6) (hdest : dest < 65536)
    (hcmd : command < 256) (hdata : data.length ≤ 11) (hs : s.length = 3) :
    ∃ pkt, packetutils.make_command_packet key address dest command data s = some pkt ∧
      packetutils.decrypt_command_packet key address pkt =
        some (packetutils.cmdPayload dest command data) ∧
      (packetutils.cmdPayload dest command data).take 2 = packetutils.leBytes2 dest ∧
      (packetutils.cmdPayload dest command data).getD 2 0 = command ∧
      ((packetutils.cmdPayload dest command data).drop 5).take data.length = data := by
  obtain ⟨check, enc, hck, hcklen, henc, henclen, hback, hmk⟩ :=
    make_command_packet_spec key address dest command data s hdata
  have htk2 : (check.take 2).length = 2 := by
    simp [List.length_take]
    omega
  refine ⟨s ++ check.take 2 ++ enc, hmk, ?_, ?_, ?_, ?_⟩
  · have htake3 : (s ++ check.take 2 ++ enc).take 3 = s := by
      rw [List.append_assoc]
      exact List.take_left' hs
    have hdrop5 : (s ++ check.take 2 ++ enc).drop 5 = enc :=
      List.drop_left' (by simp [htk2, hs])
    have hdrop3 : (s ++ check.take 2 ++ enc).drop 3 = check.take 2 ++ enc := by
      rw [List.append_assoc]
      exact List.drop_left' hs
    have htk2' : ((s ++ check.take 2 ++ enc).drop 3).take 2 = check.take 2 := by
      rw [hdrop3]
      exact List.take_left' htk2
    simp only [packetutils.decrypt_command_packet]
    rw [htake3, hdrop5, hback, Option.some_bind, hck, Option.some_bind, htk2', if_pos rfl]
  · rw [cmdPayload_eq]
    simp [packetutils.leBytes2]
  · rw [cmdPayload_eq]
    simp
  · rw [cmdPayload_eq]
    simp only [List.drop_succ_cons, List.drop_zero]
    exact List.take_left' rfl

/-- Witness for C1 (amended) at a concrete key, MAC, destination, opcode,
data and sequence. -/
theorem C1_roundtrip_witness :
    ∃ pkt, packetutils.make_command_packet
        [0, 1, 2, 3, 4, 5, 6, 7, 8, 9, 10, 11, 12, 13, 14, 15]
        [0xa4, 0xc1, 0x38, 0x11, 0x22, 0x33] 0x1234 0xd0 [1, 2] [7, 8, 9] = some pkt ∧
      packetutils.decrypt_command_packet
        [0, 1, 2, 3, 4, 5, 6, 7, 8, 9, 10, 11, 12, 13, 14, 15]
        [0xa4, 0xc1, 0x38, 0x11, 0x22, 0x33] pkt =
        some (packetutils.cmdPayload 0x1234 0xd0 [1, 2]) ∧
      (packetutils.cmdPayload 0x1234 0xd0 [1, 2]).take 2 = packetutils.leBytes2 0x1234 ∧
      (packetutils.cmdPayload 0x1234 0xd0 [1, 2]).getD 2 0 = 0xd0 ∧
      ((packetutils.cmdPayload 0x1234 0xd0 [1, 2]).drop 5).take [1, 2].length = [1, 2] :=
  C1_roundtrip [0, 1, 2, 3, 4, 5, 6, 7, 8, 9, 10, 11, 12, 13, 14, 15]
    [0xa4, 0xc1, 0x38, 0x11, 0x22, 0x33] 0x1234 0xd0 [1, 2] [7, 8, 9]
    (by decide) (by decide) (by decide) (by decide) (by decide) (by decide)

set_option maxRecDepth 1000000 in
/-- Counterexample to claim C1 as stated: decrypting a freshly built command
packet with `decrypt_packet` itself returns `None` (checksum mismatch, since
`decrypt_packet` builds the notification-direction nonce from the reversed
MAC's first 3 bytes and the packet's first 5 bytes, not the
command-direction nonce the packet was encrypted with), already at this
concrete 16-byte key, MAC, destination 0x1234, opcode 0xD0, 1-byte data and
sequence [7, 8, 9]. -/
theorem C1_counterexample :
    packetutils.decrypt_packet [0, 1, 2, 3, 4, 5, 6, 7, 8, 9, 10, 11, 12, 13, 14, 15]
      [0xa4, 0xc1, 0x38, 0x11, 0x22, 0x33]
      ((packetutils.make_command_packet [0, 1, 2, 3, 4, 5, 6, 7, 8, 9, 10, 11, 12, 13, 14, 15]
        [0xa4, 0xc1, 0x38, 0x11, 0x22, 0x33] 0x1234 0xd0 [1] [7, 8, 9]).getD []) =
    packetutils.DecryptResult.result none := by
  decide

/-- Claim C3 (corrected): for data of at most 10 bytes (not 11 — see
`C3_counterexample`), `make_command_packet` returns a packet of exactly 20
bytes laid out as the 3-byte random sequence, then the first 2 bytes of the
checksum, then the 15-byte encrypted payload. -/
theorem C3_packet_layout (key address : List Nat) (dest command : Nat) (data s : List Nat)
    (hkey : key.length = 16) (haddr : address.length = 6) (hdest : dest < 65536)
    (hcmd : command < 256) (hdata : data.length ≤ 10) (hs : s.length = 3) :
    ∃ check enc,
      packetutils.make_checksum key (packetutils.cmdNonce address s)
        (packetutils.cmdPayload dest command data) = some check ∧
      packetutils.crypt_payload key (packetutils.cmdNonce address s)
        (packetutils.cmdPayload dest command data) = some enc ∧
      enc.length = 15 ∧ (check.take 2).length = 2 ∧
      packetutils.make_command_packet key address dest command data s =
        some (s ++ check.take 2 ++ enc) ∧
      (s ++ check.take 2 ++ enc).length = 20 := by
  obtain ⟨check, enc, hck, hcklen, henc, henclen, _, hmk⟩ :=
    make_command_packet_spec key address dest command data s (by omega)
  have hplen := cmdPayload_length dest command data
  have henc15 : enc.length = 15 := by omega
  have htk2 : (check.take 2).length = 2 := by
    simp [List.length_take]
    omega
  refine ⟨check, enc, hck, henc, henc15, htk2, hmk, ?_⟩
  simp [List.length_append, hs, htk2, henc15]

/-- Witness for C3 (amended) at a concrete key, MAC, destination, opcode,
10-byte data and sequence. -/
theorem C3_packet_layout_witness :
    ∃ check enc,
      packetutils.make_checksum [0, 1, 2, 3, 4, 5, 6, 7, 8, 9, 10, 11, 12, 13, 14, 15]
        (packetutils.cmdNonce [0xa4, 0xc1, 0x38, 0x11, 0x22, 0x33] [7, 8, 9])
        (packetutils.cmdPayload 0x1234 0xd0 [1, 2, 3, 4, 5, 6, 7, 8, 9, 10]) = some check ∧
      packetutils.crypt_payload [0, 1, 2, 3, 4, 5, 6, 7, 8, 9, 10, 11, 12, 13, 14, 15]
        (packetutils.cmdNonce [0xa4, 0xc1, 0x38, 0x11, 0x22, 0x33] [7, 8, 9])
        (packetutils.cmdPayload 0x1234 0xd0 [1, 2, 3, 4, 5, 6, 7, 8, 9, 10]) = some enc ∧
      enc.length = 15 ∧ (check.take 2).length = 2 ∧
      packetutils.make_command_packet [0, 1, 2, 3, 4, 5, 6, 7, 8, 9, 10, 11, 12, 13, 14, 15]
        [0xa4, 0xc1, 0x38, 0x11, 0x22, 0x33] 0x1234 0xd0
        [1, 2, 3, 4, 5, 6, 7, 8, 9, 10] [7, 8, 9] = some ([7, 8, 9] ++ check.take 2 ++ enc) ∧
      ([7, 8, 9] ++ check.take 2 ++ enc).length = 20 :=
  C3_packet_layout [0, 1, 2, 3, 4, 5, 6, 7, 8, 9, 10, 11, 12, 13, 14, 15]
    [0xa4, 0xc1, 0x38, 0x11, 0x22, 0x33] 0x1234 0xd0 [1, 2, 3, 4, 5, 6, 7, 8, 9, 10] [7, 8, 9]
    (by decide) (by decide) (by decide) (by decide) (by decide) (by decide)

set_option maxRecDepth 1000000 in
/-- Counterexample to claim C3 as stated: with data of exactly 11 bytes the
plaintext payload is 16 bytes (2 + 1 + 2 + 11 > 15, so the zero-pad to 15 does
not truncate) and the built packet has 21 bytes, not 20. -/
theorem C3_counterexample :
    (packetutils.make_command_packet [0, 1, 2, 3, 4, 5, 6, 7, 8, 9, 10, 11, 12, 13, 14, 15]
      [0xa4, 0xc1, 0x38, 0x11, 0x22, 0x33] 0x1234 0xd0
      [1, 1, 1, 1, 1, 1, 1, 1, 1, 1, 1] [7, 8, 9]).map List.length = some 21 ∧
    (21 : Nat) ≠ 20 := by
  constructor
  · decide
  · decide

/-- Claim C4 (corrected): for packets of at most 262 bytes `decrypt_packet`
never raises: it returns `None` exactly when the first two bytes of the
checksum recomputed over the decrypted payload differ from packet bytes 5..6,
and otherwise returns the packet's first 7 bytes concatenated with the
decrypted payload.  (For longer packets the decrypted payload reaches 256
bytes and `make_checksum`'s length byte raises — see `C4_counterexample` —
so the claim's "any length" is cut down to ≤ 262.) -/
theorem C4_decrypt_total (key address packet : List Nat)
    (hkey : key.length = 16) (hpkt : packet.length ≤ 262) :
    ∃ payload check,
      packetutils.crypt_payload key (packetutils.ntfNonce address packet)
        (packet.drop 7) = some payload ∧
      payload.length = (packet.drop 7).length ∧
      packetutils.make_checksum key (packetutils.ntfNonce address packet) payload =
        some check ∧
      packetutils.decrypt_packet key address packet =
        (if check.take 2 = (packet.drop 5).take 2 then
          packetutils.DecryptResult.result (some (packet.take 7 ++ payload))
         else packetutils.DecryptResult.result none) ∧
      packetutils.decrypt_packet key address packet ≠ packetutils.DecryptResult.raised := by
  obtain ⟨payload, hcp, hplen, _⟩ := crypt_payload_spec key
    (packetutils.ntfNonce address packet) (packet.drop 7)
    (by simp only [List.length_drop]; omega)
  obtain ⟨check, hck, _⟩ := make_checksum_some key (packetutils.ntfNonce address packet)
    payload (by rw [hplen]; simp only [List.length_drop]; omega)
  have hchar : packetutils.decrypt_packet key address packet =
      (if check.take 2 = (packet.drop 5).take 2 then
        packetutils.DecryptResult.result (some (packet.take 7 ++ payload))
       else packetutils.DecryptResult.result none) := by
    simp only [packetutils.decrypt_packet, hcp, hck]
  refine ⟨payload, check, hcp, hplen, hck, hchar, ?_⟩
  rw [hchar]
  by_cases hc : check.take 2 = (packet.drop 5).take 2 <;> simp [hc]

/-- Witness for C4 (amended) at a concrete key, MAC and 20-byte all-zero
packet. -/
theorem C4_decrypt_total_witness :
    ∃ payload check,
      packetutils.crypt_payload [0, 1, 2, 3, 4, 5, 6, 7, 8, 9, 10, 11, 12, 13, 14, 15]
        (packetutils.ntfNonce [0xa4, 0xc1, 0x38, 0x11, 0x22, 0x33] (List.replicate 20 0))
        ((List.replicate 20 0).drop 7) = some payload ∧
      payload.length = ((List.replicate 20 0).drop 7).length ∧
      packetutils.make_checksum [0, 1, 2, 3, 4, 5, 6, 7, 8, 9, 10, 11, 12, 13, 14, 15]
        (packetutils.ntfNonce [0xa4, 0xc1, 0x38, 0x11, 0x22, 0x33] (List.replicate 20 0))
        payload = some check ∧
      packetutils.decrypt_packet [0, 1, 2, 3, 4, 5, 6, 7, 8, 9, 10, 11, 12, 13, 14, 15]
        [0xa4, 0xc1, 0x38, 0x11, 0x22, 0x33] (List.replicate 20 0) =
        (if check.take 2 = ((List.replicate 20 0).drop 5).take 2 then
          packetutils.DecryptResult.result
            (some ((List.replicate 20 0).take 7 ++ payload))
         else packetutils.DecryptResult.result none) ∧
      packetutils.decrypt_packet [0, 1, 2, 3, 4, 5, 6, 7, 8, 9, 10, 11, 12, 13, 14, 15]
        [0xa4, 0xc1, 0x38, 0x11, 0x22, 0x33] (List.replicate 20 0) ≠
        packetutils.DecryptResult.raised :=
  C4_decrypt_total [0, 1, 2, 3, 4, 5, 6, 7, 8, 9, 10, 11, 12, 13, 14, 15]
    [0xa4, 0xc1, 0x38, 0x11, 0x22, 0x33] (List.replicate 20 0) (by decide) (by decide)

/-- Counterexample to claim C4 as stated: on a 263-byte packet the decrypted
payload has 256 bytes, so `bytearray([len(payload)])` in `make_checksum`
raises `ValueError` — `decrypt_packet` raises instead of returning. -/
theorem C4_counterexample :
    packetutils.decrypt_packet [0, 1, 2, 3, 4, 5, 6, 7, 8, 9, 10, 11, 12, 13, 14, 15]
      [0xa4, 0xc1, 0x38, 0x11, 0x22, 0x33] (List.replicate 263 0) =
      packetutils.DecryptResult.raised := by
  obtain ⟨payload, hcp, hplen, _⟩ := crypt_payload_spec
    [0, 1, 2, 3, 4, 5, 6, 7, 8, 9, 10, 11, 12, 13, 14, 15]
    (packetutils.ntfNonce [0xa4, 0xc1, 0x38, 0x11, 0x22, 0x33] (List.replicate 263 0))
    ((List.replicate 263 0).drop 7)
    (by rw [List.length_drop, List.length_replicate]; omega)
  have hck : packetutils.make_checksum [0, 1, 2, 3, 4, 5, 6, 7, 8, 9, 10, 11, 12, 13, 14, 15]
      (packetutils.ntfNonce [0xa4, 0xc1, 0x38, 0x11, 0x22, 0x33] (List.replicate 263 0))
      payload = none := by
    simp only [packetutils.make_checksum]
    rw [if_pos (by rw [hplen, List.length_drop, List.length_replicate])]
  simp only [packetutils.decrypt_packet, hcp, hck]
